import Mathlib

/-!
Verification of the KQL-backed memory store and checkpoint saver
(`langgraph_kusto`): a shallow embedding of the store/checkpoint layer in
Lean 4, with theorems settling the behavioural claims of the design spec.

The embedding follows the Python sources:
- `store/memory_layer.py` (JSON-path parsing/traversal, field extraction,
  embedding enrichment, put/get/search execution),
- `store/kql_builder.py` (KQL literal encoding, query builders),
- `store/translator.py` (row-to-Item translation),
- `checkpoint/checkpoint.py` (checkpoint saver),
- `setup_environment.py` (the KQL live-view definitions, which give the
  de-duplication semantics of each table's "live" projection).

Machine-level details that the claims do not touch (float contents of
embedding vectors, wall-clock datetimes) are abstracted: vectors are an
arbitrary type parameter, timestamps are naturals.
-/

namespace LangGraphKusto

/-- JSON-like structured values, the `Any` record values the Python store
manipulates (`dict` / `list` / `str` / numbers / booleans / `None`).
Python's `None` is `null`; objects are association lists in key order. -/
inductive JsonValue where
  | null : JsonValue
  | bool (b : Bool) : JsonValue
  | int (n : Int) : JsonValue
  | str (s : String) : JsonValue
  | arr (elems : List JsonValue) : JsonValue
  | obj (fields : List (String × JsonValue)) : JsonValue
deriving Repr

instance : Inhabited JsonValue := ⟨JsonValue.null⟩

/-- One parsed component of a JSON path, as produced by
`KustoMemoryLayer._parse_json_path`: a field name, an integer array
index (possibly negative, Python-style), or the wildcard `*`. -/
inductive PathKey where
  | field (name : String) : PathKey
  | idx (i : Int) : PathKey
  | star : PathKey
deriving Repr, DecidableEq

/-- Python `str.split(sep)` for a one-character separator, over the
character list: always returns a non-empty list of (possibly empty)
segments. `"".split(".") == [""]`, `"a.b".split(".") == ["a","b"]`. -/
def pySplitChar (sep : Char) : List Char → List (List Char)
  | [] => [[]]
  | c :: rest =>
    let r := pySplitChar sep rest
    if c = sep then [] :: r
    else
      match r with
      | [] => [[c]]
      | h :: t => (c :: h) :: t

theorem pySplitChar_ne_nil (sep : Char) (cs : List Char) : pySplitChar sep cs ≠ [] := by
  induction cs with
  | nil => simp [pySplitChar]
  | cons c rest ih =>
    simp only [pySplitChar]
    split
    · simp
    · match h : pySplitChar sep rest with
      | [] => exact absurd h ih
      | x :: xs => simp

/-- Digits of a decimal numeral to its value, most significant first. -/
def digitsToNat (cs : List Char) : Nat :=
  cs.foldl (fun acc c => acc * 10 + (c.toNat - '0'.toNat)) 0

/-- Python `int(s)` on the plain decimal numerals the path parser feeds it:
an optional sign followed by one or more digits; anything else raises
`ValueError`, modelled as `none`. -/
def pyParseInt (cs : List Char) : Option Int :=
  match cs with
  | '-' :: rest =>
    if rest ≠ [] ∧ rest.all Char.isDigit then some (-(digitsToNat rest : Int)) else none
  | '+' :: rest =>
    if rest ≠ [] ∧ rest.all Char.isDigit then some (digitsToNat rest : Int) else none
  | _ =>
    if cs ≠ [] ∧ cs.all Char.isDigit then some (digitsToNat cs : Int) else none

/-- The match of the regex `(.+)\[(.*)\]$` against one path segment:
the segment must end in `]`, and the greedy `(.+)` makes the bracket the
LAST `[` at position at least 1 (so the name group is non-empty).
Returns `(name, index-text)` on a match. -/
def matchBracketSegment (cs : List Char) : Option (List Char × List Char) :=
  if cs.getLast? = some ']' then
    let inner := cs.dropLast
    let bracketPositions :=
      ((List.range inner.length).filter fun i => inner.get? i = some '[' ∧ 1 ≤ i)
    match bracketPositions.max? with
    | some p => some (inner.take p, inner.drop (p + 1))
    | none => none
  else none

/-- `KustoMemoryLayer._parse_json_path` on one dot-separated segment:
on a bracket match append the name and `*` or the parsed integer index
(`none` when `int()` would raise), otherwise the whole segment is a
field name. -/
def parseSegment (cs : List Char) : Option (List PathKey) :=
  match matchBracketSegment cs with
  | some (name, idxText) =>
    if idxText = ['*'] then some [PathKey.field ⟨name⟩, PathKey.star]
    else
      match pyParseInt idxText with
      | some n => some [PathKey.field ⟨name⟩, PathKey.idx n]
      | none => none
  | none => some [PathKey.field ⟨cs⟩]

/-- The segment loop of `_parse_json_path`: parse each dot-separated
segment in order, concatenating the keys; `none` models the `ValueError`
raised by `int()` on a malformed bracket index. -/
def parseSegments : List (List Char) → Option (List PathKey)
  | [] => some []
  | seg :: rest => do
    let ks ← parseSegment seg
    let tail ← parseSegments rest
    pure (ks ++ tail)

/-- `KustoMemoryLayer._parse_json_path`: split the path on `.` and run the
segment loop. -/
def parse_json_path (path : String) : Option (List PathKey) :=
  parseSegments (pySplitChar '.' path.data)

/-- `KustoMemoryLayer._traverse_json_path` (keys first, then the data, to
let the recursion follow the key list): `[]` returns the data itself;
`*` expands over all elements of a list (non-lists yield nothing);
an integer indexes Python-style, negative indices counting from the end
and out-of-range indices yielding `[]` (the caught `IndexError`);
a field name looks up in an object, missing keys yielding `[]`. -/
def traverse_json_path : List PathKey → JsonValue → List JsonValue
  | [], data => [data]
  | PathKey.star :: rest, data =>
    match data with
    | JsonValue.arr xs => (xs.map (traverse_json_path rest)).flatten
    | _ => []
  | PathKey.idx i :: rest, data =>
    match data with
    | JsonValue.arr xs =>
      let j : Int := if i < 0 then (xs.length : Int) + i else i
      if 0 ≤ j then
        match xs.get? j.toNat with
        | some item => traverse_json_path rest item
        | none => []
      else []
    | _ => []
  | PathKey.field k :: rest, data =>
    match data with
    | JsonValue.obj fields =>
      match fields.find? (fun p => p.1 = k) with
      | some p => traverse_json_path rest p.2
      | none => []
    | _ => []

/-- Four-digit lowercase hex, as in JSON `\uXXXX` escapes. -/
def hex4 (n : Nat) : String :=
  let digit (k : Nat) : Char :=
    if k < 10 then Char.ofNat ('0'.toNat + k) else Char.ofNat ('a'.toNat + (k - 10))
  String.mk [digit (n / 4096 % 16), digit (n / 256 % 16), digit (n / 16 % 16), digit (n % 16)]

/-- Python `json.dumps` escaping of one character (default `ensure_ascii=True`):
the two-character escapes for quote, backslash and common controls, `\uXXXX`
for other controls and all non-ASCII (surrogate pairs above the BMP). -/
def jsonEscapeChar (c : Char) : String :=
  if c = '"' then "\\\""
  else if c = '\\' then "\\\\"
  else if c = '\n' then "\\n"
  else if c = '\r' then "\\r"
  else if c = '\t' then "\\t"
  else if c.toNat = 8 then "\\b"
  else if c.toNat = 12 then "\\f"
  else if c.toNat < 32 ∨ c.toNat > 126 then
    if c.toNat ≤ 0xffff then "\\u" ++ hex4 c.toNat
    else
      let v := c.toNat - 0x10000
      "\\u" ++ hex4 (0xd800 + v / 0x400) ++ "\\u" ++ hex4 (0xdc00 + v % 0x400)
  else String.singleton c

mutual

/-- Python `json.dumps(value)` with the default options (`ensure_ascii=True`,
item separator `", "`, key separator `": "`), as used by
`_enrich_command_with_embeddings` and `_extract_fields`. -/
def jsonDumps : JsonValue → String
  | JsonValue.null => "null"
  | JsonValue.bool b => if b then "true" else "false"
  | JsonValue.int n => toString n
  | JsonValue.str s => "\"" ++ String.join (s.data.map jsonEscapeChar) ++ "\""
  | JsonValue.arr xs => "[" ++ ", ".intercalate (jsonDumpsList xs) ++ "]"
  | JsonValue.obj fs => "\x7b" ++ ", ".intercalate (jsonDumpsFields fs) ++ "\x7d"

/-- `json.dumps` of each element of a JSON array, in order. -/
def jsonDumpsList : List JsonValue → List String
  | [] => []
  | x :: xs => jsonDumps x :: jsonDumpsList xs

/-- `json.dumps` of each `key: value` entry of a JSON object, in order. -/
def jsonDumpsFields : List (String × JsonValue) → List String
  | [] => []
  | (k, v) :: fs =>
    ("\"" ++ String.join (k.data.map jsonEscapeChar) ++ "\": " ++ jsonDumps v) :: jsonDumpsFields fs

end

/-- The per-fragment serialization of `KustoMemoryLayer._extract_fields`:
string fragments are kept verbatim, everything else is `json.dumps`-ed. -/
def serializeFragment (v : JsonValue) : String :=
  match v with
  | JsonValue.str s => s
  | _ => jsonDumps v

/-- `KustoMemoryLayer._extract_fields`: for each path in order, parse it,
traverse the value, and emit one `(path, serialized fragment)` pair per
extracted value in traversal order; `none` models the `ValueError` a
malformed bracket index raises. -/
def extract_fields (value : JsonValue) : List String → Option (List (String × String))
  | [] => some []
  | path :: rest => do
    let keys ← parse_json_path path
    let frags := (traverse_json_path keys value).map fun v => (path, serializeFragment v)
    let tail ← extract_fields value rest
    pure (frags ++ tail)

/-- The `index` field of a `MemoryPut`: Python `False` (indexing disabled),
`None` (default: embed the whole serialized value), or an explicit list of
JSON paths. -/
inductive IndexConfig where
  | disabled : IndexConfig
  | dfault : IndexConfig
  | paths (ps : List String) : IndexConfig

/-- Namespace match mode of a namespaced memory op
(`namespace_match_type` in `store/memory_ops.py`): `byStart` is the
source's `"prefix"` mode (KQL `startswith`), `byEnd` its `"suffix"` mode
(KQL `endswith`). -/
inductive NsMode where
  | byStart : NsMode
  | byEnd : NsMode

/-- The `where Namespace startswith p` / `endswith p` condition of the
generated KQL, on the stored namespace string. -/
def nsMatches (mode : NsMode) (rowNs pat : String) : Bool :=
  match mode with
  | NsMode.byStart => pat.data.isPrefixOf rowNs.data
  | NsMode.byEnd => pat.data.isSuffixOf rowNs.data

/-- The `MemoryPut` dataclass (`store/memory_ops.py`): target namespace and
key, structured value, optional tags, indexing configuration, and the
`embedding_chunks` / `embedding_model_uri` slots that enrichment fills.
The vector type `V` is abstract (the Python `list[float]` contents are
opaque payloads to this layer); the table names are dropped since the
model carries the two tables directly in the store state. -/
structure MemoryPut (V : Type) where
  ns : String
  nsMode : NsMode
  key : String
  value : JsonValue
  tags : Option JsonValue := none
  index : IndexConfig
  embedding_chunks : Option (List (Nat × String × V)) := none
  embedding_model_uri : Option String := none

/-- `KustoMemoryLayer._enrich_command_with_embeddings` on a `MemoryPut`,
instrumented with the list of texts passed to the embedding function, in
call order (the call trace).  With no embedding function, or `index` set
to `False`, the command is returned untouched with zero calls.  With the
default configuration one call is made on the whole `json.dumps`-ed value
(ordinal 0).  With explicit paths, one call per extracted fragment, the
ordinals enumerating the fragments in encounter order; the model URI is
the metadata of the first call.  `none` models the exception a malformed
path raises. -/
def enrich_put (V : Type) (embFn : Option (String → V × String)) (cmd : MemoryPut V) :
    Option (MemoryPut V × List String) :=
  match embFn with
  | none => some (cmd, [])
  | some f =>
    match cmd.index with
    | IndexConfig.disabled => some (cmd, [])
    | IndexConfig.dfault =>
      let s := jsonDumps cmd.value
      some ({ cmd with
                embedding_chunks := some [(0, s, (f s).1)],
                embedding_model_uri := some (f s).2 },
            [s])
    | IndexConfig.paths ps =>
      match extract_fields cmd.value ps with
      | none => none
      | some fieldValues =>
        let chunks := fieldValues.enum.map fun p => (p.1, p.2.2, (f p.2.2).1)
        some ({ cmd with
                  embedding_chunks := some chunks,
                  embedding_model_uri := (fieldValues.head?).map fun pv => (f pv.2).2 },
              fieldValues.map fun pv => pv.2)

/-- Python `str.replace(old, rep)` for a one-character pattern. -/
def pyReplaceChar (old : Char) (rep : String) (s : String) : String :=
  String.join (s.data.map fun c => if c = old then rep else String.singleton c)

/-- A row of the main raw table (`LangGraphStoreRaw`, schema from
`setup_environment.py`): Namespace, Key, structured Value, CreatedAt,
UpdatedAt, structured Tags, Deleted.  Timestamps are abstracted to `Nat`
(only their ordering matters to the layer). -/
structure MemRow where
  Namespace : String
  Key : String
  Value : JsonValue
  CreatedAt : Nat
  UpdatedAt : Nat
  Tags : JsonValue
  Deleted : Bool

/-- A row of the embeddings raw table (`...EmbeddingsRaw`): Namespace,
ParentKey, ChunkOrdinal, ChunkString, Embedding vector, EmbeddingUri,
CreatedAt, Deleted. -/
structure EmbRow (V : Type) where
  Namespace : String
  ParentKey : String
  ChunkOrdinal : Nat
  ChunkString : String
  Embedding : V
  EmbeddingUri : String
  CreatedAt : Nat
  Deleted : Bool

/-- Kusto `summarize arg_max(measure, *) by groupKey` over an ordered row
list: one row per group, the row with the maximal measure.  Kusto leaves
the output order and the tie-break unspecified; the model fixes them
deterministically to first-encounter group order, the earliest row winning
ties (the theorems below only rely on this in strict-inequality cases). -/
def summarizeArgmax {α κ : Type} [BEq κ] (groupKey : α → κ) (measure : α → Nat)
    (rows : List α) : List α :=
  rows.foldl (fun acc r => insertArgmax groupKey measure r acc) []
where
  insertArgmax (groupKey : α → κ) (measure : α → Nat) (r : α) : List α → List α
    | [] => [r]
    | a :: as =>
      if groupKey a == groupKey r then
        (if measure r > measure a then r else a) :: as
      else a :: insertArgmax groupKey measure r as

/-- The live store view `LangGraphStore()` (`setup_environment.py`):
`Raw | summarize arg_max(UpdatedAt, *) by Namespace, Key
     | where Deleted == false`. -/
def store_live (rows : List MemRow) : List MemRow :=
  (summarizeArgmax (fun r => (r.Namespace, r.Key)) (fun r => r.UpdatedAt) rows).filter
    (fun r => r.Deleted == false)

/-- The live embeddings view `...Embeddings()` (`setup_environment.py`):
`Raw | summarize arg_max(CreatedAt, *) by Namespace, ParentKey, ChunkOrdinal
     | where Deleted == false`. -/
def embeddings_live {V : Type} (rows : List (EmbRow V)) : List (EmbRow V) :=
  (summarizeArgmax (fun r => (r.Namespace, r.ParentKey, r.ChunkOrdinal))
      (fun r => r.CreatedAt) rows).filter (fun r => r.Deleted == false)

/-- The in-process image of the remote store's two memory tables. -/
structure MemState (V : Type) where
  mainRows : List MemRow
  embRows : List (EmbRow V)

/-- The empty store (both raw tables empty). -/
def MemState.empty (V : Type) : MemState V := ⟨[], []⟩

/-- `KqlBuilder.memory_get_created_at` executed against the live view:
`Table() | where Namespace <mode> ns and Key == key | take 1
 | project CreatedAt`, then the first row's `CreatedAt` if any
(as read by `_put_raw`). -/
def memory_get_created_at (rows : List MemRow) (mode : NsMode) (ns key : String) :
    Option Nat :=
  (((store_live rows).filter fun r => nsMatches mode r.Namespace ns && r.Key == key).head?).map
    (fun r => r.CreatedAt)

/-- `KqlBuilder.memory_embedding_get_created_at` executed against the live
embeddings view: filter by namespace match, ParentKey and ChunkOrdinal,
`take 1 | project CreatedAt`. -/
def memory_embedding_get_created_at {V : Type} (rows : List (EmbRow V)) (mode : NsMode)
    (ns parentKey : String) (ordinal : Nat) : Option Nat :=
  (((embeddings_live rows).filter fun r =>
      nsMatches mode r.Namespace ns && r.ParentKey == parentKey
        && r.ChunkOrdinal == ordinal).head?).map (fun r => r.CreatedAt)

/-- `KustoMemoryLayer._put_embeddings`: nothing to do when the enrichment
produced no chunks (`if not chunks: return`); otherwise, for each chunk,
resolve the per-ordinal CreatedAt from the live embeddings view (existing
or `now`) and append one row, the `ChunkString` with double quotes
replaced by single quotes; all lookups run before the single ingestion. -/
def put_embeddings {V : Type} (st : MemState V) (cmd : MemoryPut V) (now : Nat) :
    MemState V :=
  match cmd.embedding_chunks with
  | none => st
  | some [] => st
  | some chunks =>
    let newRows := chunks.map fun c =>
      let chunk_created_at :=
        (memory_embedding_get_created_at st.embRows cmd.nsMode cmd.ns cmd.key c.1).getD now
      { Namespace := cmd.ns
        ParentKey := cmd.key
        ChunkOrdinal := c.1
        ChunkString := pyReplaceChar '"' "'" c.2.1
        Embedding := c.2.2
        EmbeddingUri := cmd.embedding_model_uri.getD ""
        CreatedAt := chunk_created_at
        Deleted := false : EmbRow V }
    { st with embRows := st.embRows ++ newRows }

/-- `KustoMemoryLayer._put_raw`: resolve `CreatedAt` from the live view
(the existing row's CreatedAt if one matches, else `now`), append one raw
row with `UpdatedAt = now` and `Deleted = false`, then store the
embedding chunks. -/
def put_raw {V : Type} (st : MemState V) (cmd : MemoryPut V) (now : Nat) : MemState V :=
  let created_at := (memory_get_created_at st.mainRows cmd.nsMode cmd.ns cmd.key).getD now
  let st1 : MemState V :=
    { st with
        mainRows := st.mainRows ++
          [{ Namespace := cmd.ns
             Key := cmd.key
             Value := cmd.value
             CreatedAt := created_at
             UpdatedAt := now
             Tags := cmd.tags.getD (JsonValue.obj [])
             Deleted := false }] }
  put_embeddings st1 cmd now

/-- Is this value Python `None`?  (`cmd.value is None` in `_execute_put`.) -/
def JsonValue.isNull : JsonValue → Bool
  | JsonValue.null => true
  | _ => false

/-- `KustoMemoryLayer._execute_put`: a `None` value appends a single
tombstone row (empty `Value` and `Tags` dicts, `Deleted = true`,
both timestamps `now`) and touches nothing else; any other value goes
through `_put_raw`. -/
def execute_put {V : Type} (st : MemState V) (cmd : MemoryPut V) (now : Nat) : MemState V :=
  if cmd.value.isNull then
    { st with
        mainRows := st.mainRows ++
          [{ Namespace := cmd.ns
             Key := cmd.key
             Value := JsonValue.obj []
             CreatedAt := now
             UpdatedAt := now
             Tags := JsonValue.obj []
             Deleted := true }] }
  else put_raw st cmd now

/-- `KustoMemoryLayer.execute` on a `MemoryPut`: embedding enrichment runs
first (`_enrich_command_with_embeddings`), then `_execute_put` on the
enriched command.  The result pairs the new store state with the call
trace of the embedding function; `none` models the exception a malformed
index path raises during enrichment. -/
def execute_memory_put {V : Type} (embFn : Option (String → V × String))
    (st : MemState V) (cmd : MemoryPut V) (now : Nat) :
    Option (MemState V × List String) :=
  match enrich_put V embFn cmd with
  | none => none
  | some (cmd', calls) => some (execute_put st cmd' now, calls)

/-- The row shape `_execute_get` hands back: `KqlBuilder.memory_get_by_key`
ends in `| project Value`, so the row carries only `Value`; the timestamp
columns are absent (`none`). -/
structure GetRow where
  Value : JsonValue
  CreatedAt : Option Nat := none
  UpdatedAt : Option Nat := none

/-- `KustoMemoryLayer._execute_get`: run `memory_get_by_key` against the
live view (`Table | where Namespace <mode> ns and Key == key
| project Value`), and return the first row, or `none` when no row
matches. -/
def execute_get {V : Type} (st : MemState V) (mode : NsMode) (ns key : String) :
    Option GetRow :=
  (((store_live st.mainRows).filter fun r =>
      nsMatches mode r.Namespace ns && r.Key == key).head?).map
    (fun r => { Value := r.Value })

/-- The LangGraph `Item` fields observed by the claims: the decoded value
and the two timestamps (`key` / `namespace` are echoed from the request
by the translator and carry no store information). -/
structure Item where
  value : JsonValue
  created_at : Nat
  updated_at : Nat

/-- `LanggraphOpToKustoOpTranslator.translate_get_result`: dict-typed
cells pass through, any other shape is wrapped as `{"value": raw}`, and a
missing `CreatedAt`/`UpdatedAt` degrades to the current time / the
resolved `created_at`.  (For string-typed cells the Python would first
try `json.loads`; the synchronous write path stores LangGraph's dict
values as structured dynamics, so no theorem below exercises a string
cell.) -/
def translate_get_result (row : Option GetRow) (now : Nat) : Option Item :=
  row.map fun r =>
    { value :=
        match r.Value with
        | JsonValue.obj fs => JsonValue.obj fs
        | other => JsonValue.obj [("value", other)]
      created_at := r.CreatedAt.getD now
      updated_at := r.UpdatedAt.getD (r.CreatedAt.getD now) }

/-- A row of a similarity-search result set, as consumed by
`_search_with_embeddings`: the claims only observe the score (ordering)
and the row count, so the remaining projected columns are bundled as the
key/value payload.  Scores are abstracted to an ordered type (`Int`). -/
structure ScoredRow where
  Key : String
  Value : JsonValue
  Score : Int

/-- The client-side window `rows[offset : offset + limit]` that
`_search_with_embeddings` applies to the store's result rows. -/
def slice_window {α : Type} (offset limit : Nat) (rows : List α) : List α :=
  (rows.drop offset).take limit

/-- `KustoMemoryLayer._search_with_embeddings`, from the tabular result
onwards: the rows the store returned, sliced to
`[offset, offset + limit)`, in row order. -/
def search_with_embeddings_rows (rows : List ScoredRow) (offset limit : Nat) :
    List ScoredRow :=
  slice_window offset limit rows

/-- Python runtime values as the checkpoint saver sees them: strings,
integers, tuples, lists and string-keyed dicts.  Tuples and lists are
distinct shapes (`put_writes` stores tuples, the storage round trip
returns lists, `get_tuple` converts back). -/
inductive PyVal where
  | str (s : String) : PyVal
  | int (n : Int) : PyVal
  | tup (xs : List PyVal) : PyVal
  | list (xs : List PyVal) : PyVal
  | dict (fields : List (String × PyVal)) : PyVal
deriving Repr

mutual

/-- Modelled from the spec: the external serializer boundary
(`serde.dumps_typed` followed by the `ormsgpack`/`json` decode in
`checkpoint.py`) turns a Python value into "a storage-ready structural
form"; ordered tuples have no structural encoding of their own and come
back as lists, which is why `get_tuple` must convert them back.  The
round trip is the identity on everything else. -/
def toJsonLike : PyVal → PyVal
  | PyVal.str s => PyVal.str s
  | PyVal.int n => PyVal.int n
  | PyVal.tup xs => PyVal.list (toJsonLikeList xs)
  | PyVal.list xs => PyVal.list (toJsonLikeList xs)
  | PyVal.dict fs => PyVal.dict (toJsonLikeFields fs)

/-- Structural form of each element of a list/tuple, in order. -/
def toJsonLikeList : List PyVal → List PyVal
  | [] => []
  | x :: xs => toJsonLike x :: toJsonLikeList xs

/-- Structural form of each dict entry, in order. -/
def toJsonLikeFields : List (String × PyVal) → List (String × PyVal)
  | [] => []
  | (k, v) :: fs => (k, toJsonLike v) :: toJsonLikeFields fs

end

/-- Python truthiness on the modelled values (`if writes_data:` and the
`if not thread_id:` / `if not checkpoint_id:` guards): empty strings,
zero, and empty collections are falsy. -/
def pyTruthy : PyVal → Bool
  | PyVal.str s => !(s == "")
  | PyVal.int n => !(n == 0)
  | PyVal.tup xs => !xs.isEmpty
  | PyVal.list xs => !xs.isEmpty
  | PyVal.dict fs => !fs.isEmpty

/-- An optional string under Python truthiness: `none` and `some ""` are
both "absent" (`if not thread_id`, `if not checkpoint_id`). -/
def truthyStr : Option String → Option String
  | none => none
  | some s => if s == "" then none else some s

/-- A row of the raw checkpoint table (`...CheckpointsRaw`,
`setup_environment.py`). -/
structure CkptRow where
  ThreadId : String
  CheckpointNamespace : String
  CheckpointId : String
  ParentCheckpointId : String
  Snapshot : PyVal
  CreatedAt : Nat
  Deleted : Bool

/-- A row of the raw checkpoint-writes table (`...CheckpointsWritesRaw`). -/
structure WriteRow where
  ThreadId : String
  CheckpointNamespace : String
  CheckpointId : String
  TaskId : String
  Writes : PyVal
  CreatedAt : Nat

/-- The in-process image of the two checkpoint tables. -/
structure CkptState where
  ckptRows : List CkptRow
  writeRows : List WriteRow

/-- The empty checkpoint store. -/
def CkptState.empty : CkptState := ⟨[], []⟩

/-- The live checkpoints view `...Checkpoints()` (`setup_environment.py`):
`Raw | summarize arg_max(CreatedAt, *) by ThreadId, CheckpointNamespace,
CheckpointId | where Deleted == false`.  (The writes view `...Writes()` is
the raw writes table unchanged.) -/
def checkpoints_live (rows : List CkptRow) : List CkptRow :=
  (summarizeArgmax (fun r => (r.ThreadId, r.CheckpointNamespace, r.CheckpointId))
      (fun r => r.CreatedAt) rows).filter (fun r => r.Deleted == false)

/-- The `configurable` part of a LangGraph `RunnableConfig` as the saver
reads it: `thread_id` (read with `[...]` in `put`/`put_writes`, with
`.get` in `get_tuple`), `checkpoint_ns` (defaulted to `""`), and the
optional `checkpoint_id`. -/
structure RunnableConfig where
  thread_id : Option String := none
  checkpoint_ns : String := ""
  checkpoint_id : Option String := none

/-- `KustoCheckpointSaver.put`: serialize the checkpoint to its structural
form, append one raw row keyed by (thread, namespace, checkpoint id) with
`ParentCheckpointId` taken from the caller's config (defaulted to `""`),
and return a config pointing at the new checkpoint.  `none` models the
`KeyError` when the config has no `thread_id`. -/
def checkpoint_put (st : CkptState) (config : RunnableConfig) (checkpoint_id : String)
    (checkpoint : PyVal) (now : Nat) : Option (CkptState × RunnableConfig) :=
  match config.thread_id with
  | none => none
  | some tid =>
    some
      ({ st with
          ckptRows := st.ckptRows ++
            [{ ThreadId := tid
               CheckpointNamespace := config.checkpoint_ns
               CheckpointId := checkpoint_id
               ParentCheckpointId := config.checkpoint_id.getD ""
               Snapshot := toJsonLike checkpoint
               CreatedAt := now
               Deleted := false }] },
       { thread_id := some tid
         checkpoint_ns := config.checkpoint_ns
         checkpoint_id := some checkpoint_id })

/-- `KustoCheckpointSaver.put_writes`: a falsy `checkpoint_id` makes the
whole call a no-op; otherwise the write list is serialized to its
structural form (each `(channel, value)` tuple becoming a two-element
list) and appended as one row keyed by (thread, namespace, checkpoint id,
task id).  `none` models the `KeyError` when the config has no
`thread_id`. -/
def checkpoint_put_writes (st : CkptState) (config : RunnableConfig)
    (writes : List (String × PyVal)) (task_id : String) (now : Nat) : Option CkptState :=
  match config.thread_id with
  | none => none
  | some tid =>
    match truthyStr config.checkpoint_id with
    | none => some st
    | some cid =>
      some
        { st with
            writeRows := st.writeRows ++
              [{ ThreadId := tid
                 CheckpointNamespace := config.checkpoint_ns
                 CheckpointId := cid
                 TaskId := task_id
                 Writes := toJsonLike (PyVal.list (writes.map fun w => PyVal.tup [PyVal.str w.1, w.2]))
                 CreatedAt := now }] }

/-- Kusto `top 1 by CreatedAt desc` on a row list: some row of maximal
`CreatedAt` (tie-break unspecified by the engine; the first maximal row
here). -/
def top1ByCreatedAtDesc (rows : List CkptRow) : Option CkptRow :=
  rows.foldl
    (fun acc r =>
      match acc with
      | none => some r
      | some a => if r.CreatedAt > a.CreatedAt then some r else some a)
    none

/-- The checkpoint-row lookup of `get_tuple`: with an explicit checkpoint
id, the live row with that exact (thread, namespace, id) (`take 1`); with
none, the most recently created live row for (thread, namespace)
(`top 1 by CreatedAt desc`). -/
def get_checkpoint_row (st : CkptState) (tid ns : String) (cid? : Option String) :
    Option CkptRow :=
  match cid? with
  | some cid =>
    (((checkpoints_live st.ckptRows).filter fun r =>
        r.ThreadId == tid && r.CheckpointNamespace == ns && r.CheckpointId == cid).head?)
  | none =>
    top1ByCreatedAtDesc
      ((checkpoints_live st.ckptRows).filter fun r =>
        r.ThreadId == tid && r.CheckpointNamespace == ns)

/-- The snapshot-decoding dispatch of `get_tuple`: strings go through the
`("json", ...)` serde path (the decoded payload is opaque to the claims
and abstracted as the text itself), dicts through the `("msgpack", ...)`
path (the identity on structural data), and any other shape raises
`TypeError`, modelled as `Except.error`. -/
def deserialize_snapshot : PyVal → Except String PyVal
  | PyVal.str s => Except.ok (PyVal.str s)
  | PyVal.dict fs => Except.ok (PyVal.dict fs)
  | _ => Except.error "Unexpected snapshot data type"

/-- The per-row pending-write restoration of `get_tuple`: a falsy `Writes`
cell contributes nothing; a list cell is deserialized (the identity on
structural data) and each element that is a list is converted back to a
tuple; `put_writes` only ever stores lists, so other cell shapes (which
Python would extend element-wise) are kept as-is. -/
def restore_writes (w : PyVal) : List PyVal :=
  if pyTruthy w then
    match w with
    | PyVal.list items =>
      items.map fun it =>
        match it with
        | PyVal.list xs => PyVal.tup xs
        | other => other
    | other => [other]
  else []

/-- The checkpoint tuple fields observed by the claims: the decoded
snapshot, the resolved checkpoint id, the parent id, and the aggregated
pending writes (`none` when no write rows contributed anything). -/
structure CheckpointTuple where
  checkpoint : PyVal
  checkpoint_id : String
  parent_checkpoint_id : String
  pending_writes : Option (List PyVal)

/-- `KustoCheckpointSaver.get_tuple`: a falsy `thread_id` returns `none`;
otherwise resolve the checkpoint row (explicit id or latest), returning
`none` when no row matches; decode the snapshot (`TypeError` on an
unexpected shape); gather all write rows for (thread, namespace, resolved
checkpoint id) in row order across all task ids, flattening their
restored writes into one sequence. -/
def checkpoint_get_tuple (st : CkptState) (config : RunnableConfig) :
    Except String (Option CheckpointTuple) :=
  match truthyStr config.thread_id with
  | none => Except.ok none
  | some tid =>
    let ns := config.checkpoint_ns
    match get_checkpoint_row st tid ns (truthyStr config.checkpoint_id) with
    | none => Except.ok none
    | some row =>
      match deserialize_snapshot row.Snapshot with
      | Except.error e => Except.error e
      | Except.ok ckpt =>
        let wrows := st.writeRows.filter fun w =>
          w.ThreadId == tid && w.CheckpointNamespace == ns
            && w.CheckpointId == row.CheckpointId
        let all_writes := (wrows.map fun w => restore_writes w.Writes).flatten
        Except.ok (some
          { checkpoint := ckpt
            checkpoint_id := row.CheckpointId
            parent_checkpoint_id := row.ParentCheckpointId
            pending_writes := if all_writes.isEmpty then none else some all_writes })

/-- `kql_builder._kusto_literal` on strings: strings containing a newline,
carriage return or backslash are emitted as a raw triple-backtick block with
the content verbatim; all other strings are single-quoted with each embedded
single quote doubled. -/
def kusto_literal_str (value : String) : String :=
  if value.data.contains '\n' || value.data.contains '\r' || value.data.contains '\\' then
    "\x60\x60\x60" ++ value ++ "\x60\x60\x60"
  else
    "'" ++ pyReplaceChar '\'' "''" value ++ "'"

/-! ## Theorems settling the claims -/

/-- C4: JSON-path traversal of `"items[*].text"` over
`{"items":[{"text":"a"},{"text":"b"}]}` yields exactly `["a","b"]` in that
order; a path naming a missing field (`"missing"`) yields the empty list;
a path with an out-of-range index (`"arr[5]"` on a 2-element array) yields
the empty list — in each case the parse succeeds and the traversal is
total, so no error is raised. -/
theorem c4_json_path_traversal :
    ((parse_json_path "items[*].text").map
        (fun ks => traverse_json_path ks
          (JsonValue.obj [("items",
            JsonValue.arr [JsonValue.obj [("text", JsonValue.str "a")],
                           JsonValue.obj [("text", JsonValue.str "b")]])]))
      = some [JsonValue.str "a", JsonValue.str "b"])
    ∧ ((parse_json_path "missing").map
        (fun ks => traverse_json_path ks
          (JsonValue.obj [("items",
            JsonValue.arr [JsonValue.obj [("text", JsonValue.str "a")],
                           JsonValue.obj [("text", JsonValue.str "b")]])]))
      = some [])
    ∧ ((parse_json_path "arr[5]").map
        (fun ks => traverse_json_path ks
          (JsonValue.obj [("arr",
            JsonValue.arr [JsonValue.str "a", JsonValue.str "b"])]))
      = some []) :=
  ⟨rfl, rfl, rfl⟩

/-- C10: the path parser accepts a negative bracket index (`"arr[-1]"`
parses to the field and the index `-1`), and traversal resolves a negative
index Python-style: over an array of length `n` an index `i < 0` yields
the single element at position `n + i` when `-n ≤ i`, and the empty list
when `i < -n`. -/
theorem c10_negative_index_python_style (xs : List JsonValue) (i : Int) (hneg : i < 0) :
    parse_json_path "arr[-1]" = some [PathKey.field "arr", PathKey.idx (-1)]
    ∧ (-(xs.length : Int) ≤ i →
        ∃ v, xs.get? ((xs.length : Int) + i).toNat = some v
          ∧ traverse_json_path [PathKey.idx i] (JsonValue.arr xs) = [v])
    ∧ (i < -(xs.length : Int) →
        traverse_json_path [PathKey.idx i] (JsonValue.arr xs) = []) := by
  refine ⟨by decide, ?_, ?_⟩
  · intro hge
    have hj0 : (0 : Int) ≤ (xs.length : Int) + i := by omega
    have hjlt : ((xs.length : Int) + i).toNat < xs.length := by omega
    obtain ⟨v, hv⟩ : ∃ v, xs.get? ((xs.length : Int) + i).toNat = some v :=
      ⟨xs.get ⟨_, hjlt⟩, List.get?_eq_get hjlt⟩
    refine ⟨v, hv, ?_⟩
    simp only [traverse_json_path, if_pos hneg, if_pos hj0, hv]
  · intro hlt
    have hj0 : ¬ (0 : Int) ≤ (xs.length : Int) + i := by omega
    simp only [traverse_json_path, if_pos hneg, if_neg hj0]

/-- Witness for C10 at the concrete input of the claim: `"arr[-1]"` on the
2-element array `["a","b"]` yields the last element. -/
theorem c10_negative_index_python_style_witness :
    (-1 : Int) < 0
    ∧ (∃ v, [JsonValue.str "a", JsonValue.str "b"].get?
          (((2 : Nat) : Int) + (-1)).toNat = some v
        ∧ traverse_json_path [PathKey.idx (-1)]
            (JsonValue.arr [JsonValue.str "a", JsonValue.str "b"]) = [v]) :=
  ⟨by decide,
   (c10_negative_index_python_style [JsonValue.str "a", JsonValue.str "b"] (-1)
      (by decide)).2.1 (by decide)⟩

/-- C8: the literal encoder renders every string free of newline, carriage
return and backslash as a single-quoted literal with each embedded single
quote doubled, and every string containing one of those characters as a
raw triple-backtick block whose content is copied verbatim, with no
escaping applied. -/
theorem c8_literal_encoder_strings (s : String) :
    ((s.data.contains '\n' || s.data.contains '\r' || s.data.contains '\\') = false →
      kusto_literal_str s =
        "'" ++ String.join (s.data.map fun c => if c = '\'' then "''" else String.singleton c) ++ "'")
    ∧ ((s.data.contains '\n' || s.data.contains '\r' || s.data.contains '\\') = true →
      kusto_literal_str s = "\x60\x60\x60" ++ s ++ "\x60\x60\x60") := by
  constructor <;> intro h <;>
    simp only [kusto_literal_str, pyReplaceChar, h, Bool.false_eq_true, if_false, if_true,
      Bool.true_eq_false, ite_true, ite_false]

/-- Witness for C8: a plain string with an embedded quote is single-quoted
with the quote doubled; a string with a newline is emitted verbatim in the
raw block form. -/
theorem c8_literal_encoder_strings_witness :
    (("it's".data.contains '\n' || "it's".data.contains '\r' || "it's".data.contains '\\') = false
      ∧ kusto_literal_str "it's" = "'it''s'")
    ∧ (("a\nb".data.contains '\n' || "a\nb".data.contains '\r' || "a\nb".data.contains '\\') = true
      ∧ kusto_literal_str "a\nb" = "\x60\x60\x60a\nb\x60\x60\x60") := by
  refine ⟨⟨by decide, ?_⟩, ⟨by decide, ?_⟩⟩
  · exact ((c8_literal_encoder_strings "it's").1 (by decide)).trans (by decide)
  · exact ((c8_literal_encoder_strings "a\nb").2 (by decide)).trans (by decide)

/-- C9: from any tabular result the store returns for a similarity search,
the engine delivers the window `[offset, offset + limit)` of the rows: at
most `limit` items, and (the store's contract for this query being rows
ordered by descending score) the delivered list stays ordered by
descending score. -/
theorem c9_similarity_search_limit_and_order (rows : List ScoredRow) (offset limit : Nat)
    (hsorted : rows.Pairwise (fun a b => a.Score ≥ b.Score)) :
    (search_with_embeddings_rows rows offset limit).length ≤ limit
    ∧ (search_with_embeddings_rows rows offset limit).Pairwise
        (fun a b => a.Score ≥ b.Score) := by
  refine ⟨?_, ?_⟩
  · simp only [search_with_embeddings_rows, slice_window]
    exact List.length_take_le limit (rows.drop offset)
  · exact hsorted.sublist ((List.take_sublist _ _).trans (List.drop_sublist _ _))

/-- Witness for C9: three descending-score rows, `offset = 0`,
`limit = 2`: at most two results, still descending. -/
theorem c9_similarity_search_limit_and_order_witness :
    List.Pairwise (fun a b => a.Score ≥ b.Score)
      [ScoredRow.mk "a" JsonValue.null 3, ScoredRow.mk "b" JsonValue.null 2,
       ScoredRow.mk "c" JsonValue.null 1]
    ∧ ((search_with_embeddings_rows
          [ScoredRow.mk "a" JsonValue.null 3, ScoredRow.mk "b" JsonValue.null 2,
           ScoredRow.mk "c" JsonValue.null 1] 0 2).length ≤ 2
      ∧ (search_with_embeddings_rows
          [ScoredRow.mk "a" JsonValue.null 3, ScoredRow.mk "b" JsonValue.null 2,
           ScoredRow.mk "c" JsonValue.null 1] 0 2).Pairwise
          (fun a b => a.Score ≥ b.Score)) := by
  have hs : List.Pairwise (fun (a b : ScoredRow) => a.Score ≥ b.Score)
      [ScoredRow.mk "a" JsonValue.null 3, ScoredRow.mk "b" JsonValue.null 2,
       ScoredRow.mk "c" JsonValue.null 1] := by
    refine List.Pairwise.cons ?_ (List.Pairwise.cons ?_ (List.pairwise_singleton _ _)) <;>
      simp
  exact ⟨hs, c9_similarity_search_limit_and_order _ 0 2 hs⟩

/-- A wildcard-free key list extracts at most one value: every step of the
traversal either descends into a single child or stops with nothing. -/
theorem traverse_length_le_one (ks : List PathKey) (hks : PathKey.star ∉ ks)
    (v : JsonValue) : (traverse_json_path ks v).length ≤ 1 := by
  induction ks generalizing v with
  | nil => simp [traverse_json_path]
  | cons k rest ih =>
    have hrest : PathKey.star ∉ rest := fun h => hks (List.mem_cons_of_mem _ h)
    match k with
    | PathKey.star => exact absurd (List.mem_cons_self _ _) hks
    | PathKey.idx i =>
      cases v with
      | arr xs =>
        simp only [traverse_json_path]
        repeat' split
        all_goals first
          | exact ih hrest _
          | simp
      | null => simp [traverse_json_path]
      | bool b => simp [traverse_json_path]
      | int n => simp [traverse_json_path]
      | str s => simp [traverse_json_path]
      | obj fs => simp [traverse_json_path]
    | PathKey.field name =>
      cases v with
      | obj fs =>
        simp only [traverse_json_path]
        split
        · exact ih hrest _
        · simp
      | null => simp [traverse_json_path]
      | bool b => simp [traverse_json_path]
      | int n => simp [traverse_json_path]
      | str s => simp [traverse_json_path]
      | arr xs => simp [traverse_json_path]

/-- Field extraction over wildcard-free, well-formed paths succeeds and
yields at most one fragment per path. -/
theorem extract_fields_nonwildcard_length (v : JsonValue) (ps : List String)
    (hps : ∀ p ∈ ps, ∃ ks, parse_json_path p = some ks ∧ PathKey.star ∉ ks) :
    ∃ frags, extract_fields v ps = some frags ∧ frags.length ≤ ps.length := by
  induction ps with
  | nil => exact ⟨[], rfl, by simp⟩
  | cons p rest ih =>
    obtain ⟨ks, hparse, hnostar⟩ := hps p (List.mem_cons_self _ _)
    obtain ⟨tail, htail, hlen⟩ := ih (fun q hq => hps q (List.mem_cons_of_mem _ hq))
    refine ⟨(traverse_json_path ks v).map (fun w => (p, serializeFragment w)) ++ tail,
      ?_, ?_⟩
    · simp [extract_fields, hparse, htail]
    · have hone := traverse_length_le_one ks hnostar v
      simp only [List.length_append, List.length_map, List.length_cons]
      omega

/-- C3: with an embedding function configured, enrichment of a put makes
zero embedding calls when indexing is disabled (`index = False`); exactly
one call, with ordinal 0 on the whole JSON-serialized value, under the
default configuration (`index = None`); and for an explicit list of
wildcard-free paths, one call per extracted fragment — at most one per
path, fewer when a path matches nothing — with the ordinals enumerating
the fragments `0..` in encounter order across paths in path order. -/
theorem c3_enrichment_call_counts (V : Type) (f : String → V × String) (cmd : MemoryPut V) :
    (cmd.index = IndexConfig.disabled → enrich_put V (some f) cmd = some (cmd, []))
    ∧ (cmd.index = IndexConfig.dfault →
        enrich_put V (some f) cmd =
          some ({ cmd with
                    embedding_chunks :=
                      some [(0, jsonDumps cmd.value, (f (jsonDumps cmd.value)).1)],
                    embedding_model_uri := some (f (jsonDumps cmd.value)).2 },
                [jsonDumps cmd.value]))
    ∧ (∀ ps frags, cmd.index = IndexConfig.paths ps →
        (∀ p ∈ ps, ∃ ks, parse_json_path p = some ks ∧ PathKey.star ∉ ks) →
        extract_fields cmd.value ps = some frags →
          enrich_put V (some f) cmd =
            some ({ cmd with
                      embedding_chunks :=
                        some (frags.enum.map fun q => (q.1, q.2.2, (f q.2.2).1)),
                      embedding_model_uri := (frags.head?).map fun pv => (f pv.2).2 },
                  frags.map fun pv => pv.2)
          ∧ frags.length ≤ ps.length
          ∧ (frags.enum.map fun q => (q.1, q.2.2, (f q.2.2).1)).map Prod.fst
              = List.range frags.length) := by
  refine ⟨?_, ?_, ?_⟩
  · intro h; simp [enrich_put, h]
  · intro h; simp [enrich_put, h]
  · intro ps frags hidx hnw hext
    refine ⟨by simp [enrich_put, hidx, hext], ?_, ?_⟩
    · obtain ⟨frags', hf', hlen⟩ := extract_fields_nonwildcard_length cmd.value ps hnw
      rw [hext] at hf'
      cases hf'
      exact hlen
    · rw [List.map_map]
      have hcomp : (Prod.fst ∘ fun q : Nat × (String × String) => (q.1, q.2.2, (f q.2.2).1))
          = Prod.fst := rfl
      rw [hcomp, List.enum_map_fst]

/-- Witness for C3, explicit-paths case: paths `["a", "missing"]` over
`{"a": "x"}` extract one fragment; one embedding call on `"x"`, ordinal 0,
one fragment for two paths. -/
theorem c3_enrichment_call_counts_witness :
    enrich_put Unit (some fun _ => ((), "m"))
        { ns := "n", nsMode := NsMode.byStart, key := "k",
          value := JsonValue.obj [("a", JsonValue.str "x")],
          index := IndexConfig.paths ["a", "missing"] } =
      some ({ ns := "n", nsMode := NsMode.byStart, key := "k",
              value := JsonValue.obj [("a", JsonValue.str "x")],
              index := IndexConfig.paths ["a", "missing"],
              embedding_chunks :=
                some (([("a", "x")] : List (String × String)).enum.map
                  fun q => (q.1, q.2.2, ((fun _ : String => ((), "m")) q.2.2).1)),
              embedding_model_uri :=
                (([("a", "x")] : List (String × String)).head?).map
                  fun pv => ((fun _ : String => ((), "m")) pv.2).2 },
            ([("a", "x")] : List (String × String)).map fun pv => pv.2)
    ∧ ([("a", "x")] : List (String × String)).length ≤ (["a", "missing"]).length
    ∧ (([("a", "x")] : List (String × String)).enum.map
        fun q => (q.1, q.2.2, ((fun _ : String => ((), "m")) q.2.2).1)).map Prod.fst
        = List.range ([("a", "x")] : List (String × String)).length := by
  refine (c3_enrichment_call_counts Unit (fun _ => ((), "m")) _).2.2
    ["a", "missing"] [("a", "x")] rfl ?_ rfl
  intro p hp
  simp only [List.mem_cons, List.mem_singleton, List.not_mem_nil, or_false] at hp
  rcases hp with rfl | rfl
  · exact ⟨[PathKey.field "a"], rfl, by decide⟩
  · exact ⟨[PathKey.field "missing"], rfl, by decide⟩

/-- C2 counterexample: a put of the null value with an embedding function
configured and the default indexing configuration DOES invoke the
embedding function — `execute` enriches before dispatching on the null
value, so the call trace is `["null"]` (the serialization of `None`), not
empty as the claim states. -/
theorem c2_null_put_counterexample :
    (execute_memory_put (V := Unit) (some fun _ => ((), "model"))
        (MemState.empty Unit)
        { ns := "users", nsMode := NsMode.byStart, key := "u1",
          value := JsonValue.null, index := IndexConfig.dfault } 0).map Prod.snd
      = some ["null"]
    ∧ some ["null"] ≠ some ([] : List String) :=
  ⟨rfl, by simp⟩

/-- A non-empty key list extracts nothing from the null value: the first
key already fails to match (`None` is neither a list nor a dict). -/
theorem traverse_null_of_ne_nil (ks : List PathKey) (h : ks ≠ []) :
    traverse_json_path ks JsonValue.null = [] := by
  match ks with
  | [] => exact absurd rfl h
  | k :: rest => cases k <;> rfl

/-- `parseSegment` never returns an empty key list. -/
theorem parseSegment_ne_nil (cs : List Char) (ks : List PathKey)
    (h : parseSegment cs = some ks) : ks ≠ [] := by
  unfold parseSegment at h
  split at h
  · split at h
    · cases h; simp
    · split at h
      · cases h; simp
      · cases h
  · cases h; simp

/-- A successfully parsed JSON path has at least one key: the split is
non-empty and every segment contributes at least one key. -/
theorem parse_json_path_ne_nil (p : String) (ks : List PathKey)
    (h : parse_json_path p = some ks) : ks ≠ [] := by
  unfold parse_json_path at h
  obtain ⟨s0, rest, hsegs⟩ :=
    List.exists_cons_of_ne_nil (pySplitChar_ne_nil '.' p.data)
  rw [hsegs] at h
  simp only [parseSegments, Option.bind_eq_bind, Option.pure_def] at h
  cases hk0 : parseSegment s0 with
  | none => simp [hk0] at h
  | some k0 =>
    cases hkr : parseSegments rest with
    | none => simp [hk0, hkr] at h
    | some krest =>
      simp only [hk0, hkr, Option.some_bind, Option.some.injEq] at h
      have hk0ne : k0 ≠ [] := parseSegment_ne_nil s0 k0 hk0
      subst h
      simp only [ne_eq, List.append_eq_nil]
      intro hcon
      exact hk0ne hcon.1

/-- Extraction from the null value yields no fragments for any list of
well-formed paths. -/
theorem extract_fields_null (ps : List String) (frags : List (String × String))
    (h : extract_fields JsonValue.null ps = some frags) : frags = [] := by
  induction ps generalizing frags with
  | nil => cases h; rfl
  | cons p rest ih =>
    simp only [extract_fields, Option.bind_eq_bind, Option.pure_def,
      Option.bind_eq_some, Option.some.injEq] at h
    obtain ⟨ks, hks, tail, htail, hfr⟩ := h
    have : traverse_json_path ks JsonValue.null = [] :=
      traverse_null_of_ne_nil ks (parse_json_path_ne_nil p ks hks)
    subst hfr
    simp only [this, List.map_nil, List.nil_append]
    exact ih tail htail

/-- C2 (amended): a put whose value is null appends exactly one tombstone
row (`Deleted = true`, value and tags cleared to `{}`, both timestamps
`now`) to the main raw table and writes nothing to the embedding table —
but the configured embedding function is NOT skipped: enrichment runs
before the null-value dispatch, so under the default indexing
configuration the function is invoked exactly once, on the serialization
`"null"`, its output discarded; with indexing disabled, with explicit
paths (which extract nothing from null), or with no embedding function,
there are zero calls. -/
theorem c2_null_put_tombstone_amended (V : Type) (f : String → V × String)
    (st : MemState V) (ns key : String) (mode : NsMode) (tags : Option JsonValue)
    (now : Nat) :
    (execute_memory_put (some f) st
        { ns := ns, nsMode := mode, key := key, value := JsonValue.null,
          tags := tags, index := IndexConfig.dfault } now
      = some
          (⟨st.mainRows ++
              [{ Namespace := ns, Key := key, Value := JsonValue.obj [],
                 CreatedAt := now, UpdatedAt := now, Tags := JsonValue.obj [],
                 Deleted := true }],
            st.embRows⟩,
           ["null"]))
    ∧ (execute_memory_put (some f) st
        { ns := ns, nsMode := mode, key := key, value := JsonValue.null,
          tags := tags, index := IndexConfig.disabled } now
      = some
          (⟨st.mainRows ++
              [{ Namespace := ns, Key := key, Value := JsonValue.obj [],
                 CreatedAt := now, UpdatedAt := now, Tags := JsonValue.obj [],
                 Deleted := true }],
            st.embRows⟩,
           []))
    ∧ (∀ ps frags, extract_fields JsonValue.null ps = some frags →
        execute_memory_put (some f) st
          { ns := ns, nsMode := mode, key := key, value := JsonValue.null,
            tags := tags, index := IndexConfig.paths ps } now
        = some
            (⟨st.mainRows ++
                [{ Namespace := ns, Key := key, Value := JsonValue.obj [],
                   CreatedAt := now, UpdatedAt := now, Tags := JsonValue.obj [],
                   Deleted := true }],
              st.embRows⟩,
             []))
    ∧ (∀ idx : IndexConfig, execute_memory_put none st
        { ns := ns, nsMode := mode, key := key, value := JsonValue.null,
          tags := tags, index := idx } now
      = some
          (⟨st.mainRows ++
              [{ Namespace := ns, Key := key, Value := JsonValue.obj [],
                 CreatedAt := now, UpdatedAt := now, Tags := JsonValue.obj [],
                 Deleted := true }],
            st.embRows⟩,
           [])) := by
  refine ⟨?_, ?_, ?_, ?_⟩
  · simp [execute_memory_put, enrich_put, execute_put, JsonValue.isNull, jsonDumps]
  · simp [execute_memory_put, enrich_put, execute_put, JsonValue.isNull]
  · intro ps frags hext
    have hfr : frags = [] := extract_fields_null ps frags hext
    subst hfr
    simp [execute_memory_put, enrich_put, execute_put, JsonValue.isNull, hext]
  · intro idx
    simp [execute_memory_put, enrich_put, execute_put, JsonValue.isNull]

/-- Witness for C2 (amended), explicit-paths case at a concrete input:
paths `["a"]` extract nothing from null, so the tombstone is written with
zero embedding calls. -/
theorem c2_null_put_tombstone_amended_witness :
    execute_memory_put (V := Unit) (some fun _ => ((), "model"))
        (MemState.empty Unit)
        { ns := "users", nsMode := NsMode.byStart, key := "u1",
          value := JsonValue.null, index := IndexConfig.paths ["a"] } 0
      = some
          (⟨(MemState.empty Unit).mainRows ++
              [{ Namespace := "users", Key := "u1", Value := JsonValue.obj [],
                 CreatedAt := 0, UpdatedAt := 0, Tags := JsonValue.obj [],
                 Deleted := true }],
            (MemState.empty Unit).embRows⟩,
           []) :=
  (c2_null_put_tombstone_amended Unit (fun _ => ((), "model"))
    (MemState.empty Unit) "users" "u1" NsMode.byStart none 0).2.2.1 ["a"] [] rfl

/-- C1 counterexample: put `{"v": 1}` at time 0, put `{"v": 2}` at time 1,
get at time 5.  The item delivered to the caller has `created_at = 5` and
`updated_at = 5` — the read time, not the first put's timestamp 0 — because
`memory_get_by_key` projects only `Value` and the translator defaults the
missing timestamps to the current time.  The claim's "get returns ... with
CreatedAt equal to the timestamp recorded by the first put" is false. -/
theorem c1_get_created_at_counterexample :
    ((execute_memory_put (V := Unit) none (MemState.empty Unit)
        { ns := "a", nsMode := NsMode.byStart, key := "k",
          value := JsonValue.obj [("v", JsonValue.int 1)],
          index := IndexConfig.dfault } 0).bind fun r1 =>
      (execute_memory_put (V := Unit) none r1.1
        { ns := "a", nsMode := NsMode.byStart, key := "k",
          value := JsonValue.obj [("v", JsonValue.int 2)],
          index := IndexConfig.dfault } 1).map fun r2 =>
        translate_get_result (execute_get r2.1 NsMode.byStart "a" "k") 5)
      = some (some { value := JsonValue.obj [("v", JsonValue.int 2)],
                     created_at := 5, updated_at := 5 })
    ∧ (5 : Nat) ≠ 0 :=
  ⟨rfl, by decide⟩

/-- C1 (amended): starting from an empty store, `put(ns, k, v1)` at `t1`
then `put(ns, k, v2)` at a later `t2` leaves the de-duplicated live view
holding exactly one row for `(ns, k)`, with Value `v2`, CreatedAt `t1`
(the first put's timestamp, reused by the second put via the live-view
lookup) and UpdatedAt `t2`; `get(ns, k)` then returns value `v2` — but,
since the point-get query projects only `Value`, the item handed to the
caller carries the read time `t3` in both timestamp fields instead of the
stored CreatedAt/UpdatedAt. -/
theorem c1_upsert_preserves_created_at_amended (V : Type) (ns k : String)
    (f1 f2 : List (String × JsonValue)) (tags1 tags2 : Option JsonValue)
    (t1 t2 t3 : Nat) (h12 : t1 < t2) :
    let row1 : MemRow :=
      { Namespace := ns, Key := k, Value := JsonValue.obj f1,
        CreatedAt := t1, UpdatedAt := t1, Tags := tags1.getD (JsonValue.obj []),
        Deleted := false }
    let row2 : MemRow :=
      { Namespace := ns, Key := k, Value := JsonValue.obj f2,
        CreatedAt := t1, UpdatedAt := t2, Tags := tags2.getD (JsonValue.obj []),
        Deleted := false }
    execute_memory_put (V := V) none (MemState.empty V)
        { ns := ns, nsMode := NsMode.byStart, key := k,
          value := JsonValue.obj f1, tags := tags1, index := IndexConfig.dfault } t1
      = some (⟨[row1], []⟩, [])
    ∧ execute_memory_put (V := V) none ⟨[row1], []⟩
        { ns := ns, nsMode := NsMode.byStart, key := k,
          value := JsonValue.obj f2, tags := tags2, index := IndexConfig.dfault } t2
      = some (⟨[row1, row2], []⟩, [])
    ∧ ((store_live [row1, row2]).filter fun r =>
        nsMatches NsMode.byStart r.Namespace ns && r.Key == k) = [row2]
    ∧ execute_get (V := V) ⟨[row1, row2], []⟩ NsMode.byStart ns k
      = some { Value := JsonValue.obj f2 }
    ∧ translate_get_result
        (execute_get (V := V) ⟨[row1, row2], []⟩ NsMode.byStart ns k) t3
      = some { value := JsonValue.obj f2, created_at := t3, updated_at := t3 } := by
  intro row1 row2
  have hlive1 : ((store_live [row1]).filter fun r =>
      nsMatches NsMode.byStart r.Namespace ns && r.Key == k) = [row1] := by
    simp [store_live, summarizeArgmax, summarizeArgmax.insertArgmax, nsMatches,
      List.isPrefixOf_iff_prefix]
  have hlive2 : ((store_live [row1, row2]).filter fun r =>
      nsMatches NsMode.byStart r.Namespace ns && r.Key == k) = [row2] := by
    simp [store_live, summarizeArgmax, summarizeArgmax.insertArgmax, nsMatches,
      List.isPrefixOf_iff_prefix, h12]
  refine ⟨?_, ?_, hlive2, ?_, ?_⟩
  · simp [execute_memory_put, enrich_put, execute_put, put_raw, put_embeddings,
      memory_get_created_at, store_live, summarizeArgmax, JsonValue.isNull,
      MemState.empty]
  · simp only [execute_memory_put, enrich_put, execute_put, put_raw, put_embeddings,
      memory_get_created_at, JsonValue.isNull, hlive1]
    simp
  · simp only [execute_get, hlive2, List.head?_cons, Option.map_some]
    rfl
  · simp only [execute_get, hlive2, List.head?_cons, Option.map_some,
      translate_get_result]
    rfl

/-- Witness for C1 (amended) at `ns = "a"`, `k = "k"`, `v1 = {"v": 1}`,
`v2 = {"v": 2}`, `t1 = 0 < t2 = 1`, read at `t3 = 5`. -/
theorem c1_upsert_preserves_created_at_amended_witness :
    (0 : Nat) < 1
    ∧ translate_get_result
        (execute_get (V := Unit)
          ⟨[{ Namespace := "a", Key := "k", Value := JsonValue.obj [("v", JsonValue.int 1)],
              CreatedAt := 0, UpdatedAt := 0,
              Tags := (none : Option JsonValue).getD (JsonValue.obj []), Deleted := false },
            { Namespace := "a", Key := "k", Value := JsonValue.obj [("v", JsonValue.int 2)],
              CreatedAt := 0, UpdatedAt := 1,
              Tags := (none : Option JsonValue).getD (JsonValue.obj []), Deleted := false }], []⟩
          NsMode.byStart "a" "k") 5
      = some { value := JsonValue.obj [("v", JsonValue.int 2)],
               created_at := 5, updated_at := 5 } :=
  ⟨by decide,
   (c1_upsert_preserves_created_at_amended Unit "a" "k"
      [("v", JsonValue.int 1)] [("v", JsonValue.int 2)] none none 0 1 5
      (by decide)).2.2.2.2⟩

/-- C7: with a thread id present (the saver reads it unconditionally, so a
config without one faults rather than no-ops), `put_writes` is a no-op —
the state is returned unchanged — exactly when the config's checkpoint id
is absent or empty (Python falsiness); otherwise it appends exactly one
row keyed by (thread id, checkpoint namespace, checkpoint id, task id)
whose `Writes` cell is the structural serialization of the write list. -/
theorem c7_put_writes_noop_or_one_row (st : CkptState) (tid cns task_id : String)
    (cid? : Option String) (writes : List (String × PyVal)) (now : Nat) :
    (truthyStr cid? = none →
      checkpoint_put_writes st ⟨some tid, cns, cid?⟩ writes task_id now = some st)
    ∧ (∀ cid, truthyStr cid? = some cid →
      checkpoint_put_writes st ⟨some tid, cns, cid?⟩ writes task_id now
        = some
            { st with
                writeRows := st.writeRows ++
                  [{ ThreadId := tid, CheckpointNamespace := cns, CheckpointId := cid,
                     TaskId := task_id,
                     Writes := toJsonLike (PyVal.list
                       (writes.map fun w => PyVal.tup [PyVal.str w.1, w.2])),
                     CreatedAt := now }] }) := by
  constructor
  · intro h; simp [checkpoint_put_writes, h]
  · intro cid h; simp [checkpoint_put_writes, h]

/-- Witness for C7: with no checkpoint id the state is unchanged; with
checkpoint id `"c1"` exactly the one keyed row is appended. -/
theorem c7_put_writes_noop_or_one_row_witness :
    (checkpoint_put_writes CkptState.empty ⟨some "t1", "", none⟩
        [("ch1", PyVal.str "v1")] "task" 7 = some CkptState.empty)
    ∧ (checkpoint_put_writes CkptState.empty ⟨some "t1", "", some "c1"⟩
        [("ch1", PyVal.str "v1")] "task" 7
      = some
          { CkptState.empty with
              writeRows := CkptState.empty.writeRows ++
                [{ ThreadId := "t1", CheckpointNamespace := "", CheckpointId := "c1",
                   TaskId := "task",
                   Writes := toJsonLike (PyVal.list
                     (([("ch1", PyVal.str "v1")] : List (String × PyVal)).map
                       fun w => PyVal.tup [PyVal.str w.1, w.2])),
                   CreatedAt := 7 }] }) :=
  ⟨(c7_put_writes_noop_or_one_row CkptState.empty "t1" "" "task" none
      [("ch1", PyVal.str "v1")] 7).1 rfl,
   (c7_put_writes_noop_or_one_row CkptState.empty "t1" "" "task" (some "c1")
      [("ch1", PyVal.str "v1")] 7).2 "c1" rfl⟩

/-- C6: `get_tuple` yields the absent result (and no exception) in exactly
two situations: a falsy thread id in the config, or no checkpoint row
matching the requested thread, namespace, and explicit-or-latest
checkpoint id.  In every other situation the result is a present tuple or
(for an unexpected snapshot shape) a type fault, never `none`. -/
theorem c6_get_tuple_none_iff (st : CkptState) (config : RunnableConfig) :
    checkpoint_get_tuple st config = Except.ok none ↔
      (truthyStr config.thread_id = none
        ∨ ∃ tid, truthyStr config.thread_id = some tid ∧
            get_checkpoint_row st tid config.checkpoint_ns
              (truthyStr config.checkpoint_id) = none) := by
  unfold checkpoint_get_tuple
  cases htid : truthyStr config.thread_id with
  | none => simp
  | some tid =>
    cases hrow : get_checkpoint_row st tid config.checkpoint_ns
        (truthyStr config.checkpoint_id) with
    | none => simp [hrow]
    | some row =>
      cases hds : deserialize_snapshot row.Snapshot with
      | error e => simp [hrow, hds]
      | ok ckpt => simp [hrow, hds]

/-- Witness for C6 (the iff has no standing hypotheses, but we exhibit the
two absent situations and one present one concretely): empty thread id and
empty store both give `ok none`; a matching row gives a present tuple. -/
theorem c6_get_tuple_none_iff_witness :
    (checkpoint_get_tuple CkptState.empty ⟨some "", "", none⟩ = Except.ok none)
    ∧ (checkpoint_get_tuple CkptState.empty ⟨some "t1", "", some "c1"⟩ = Except.ok none) := by
  constructor
  · exact (c6_get_tuple_none_iff CkptState.empty ⟨some "", "", none⟩).mpr (Or.inl rfl)
  · exact (c6_get_tuple_none_iff CkptState.empty ⟨some "t1", "", some "c1"⟩).mpr
      (Or.inr ⟨"t1", rfl, rfl⟩)

/-- The structural form of a string-valued write list: each
`(channel, value)` tuple becomes a two-element list, element by element. -/
theorem writes_toJsonLike (writes : List (String × String)) :
    toJsonLikeList (writes.map fun w => PyVal.tup [PyVal.str w.1, PyVal.str w.2])
      = writes.map fun w => PyVal.list [PyVal.str w.1, PyVal.str w.2] := by
  induction writes with
  | nil => rfl
  | cons w rest ih =>
    simp only [List.map_cons, toJsonLikeList, toJsonLike, List.cons.injEq]
    exact ⟨trivial, ih⟩

/-- C5: put a checkpoint, `put_writes` a non-empty list of string-valued
`(channel, value)` writes for one task, then `get_tuple` for that
checkpoint: the pending writes are exactly the original pairs, in order,
each reconstructed as a two-element tuple (`PyVal.tup`), not the bare list
(`PyVal.list`) the storage round trip produced. -/
theorem c5_checkpoint_writes_round_trip (tid cns cid task : String)
    (snapFields : List (String × PyVal)) (writes : List (String × String))
    (ta tb : Nat) (htid : tid ≠ "") (hcid : cid ≠ "") (hw : writes ≠ []) :
    checkpoint_put CkptState.empty ⟨some tid, cns, none⟩ cid
        (PyVal.dict snapFields) ta
      = some
          (⟨[{ ThreadId := tid, CheckpointNamespace := cns, CheckpointId := cid,
               ParentCheckpointId := "", Snapshot := toJsonLike (PyVal.dict snapFields),
               CreatedAt := ta, Deleted := false }], []⟩,
           ⟨some tid, cns, some cid⟩)
    ∧ checkpoint_put_writes
        ⟨[{ ThreadId := tid, CheckpointNamespace := cns, CheckpointId := cid,
            ParentCheckpointId := "", Snapshot := toJsonLike (PyVal.dict snapFields),
            CreatedAt := ta, Deleted := false }], []⟩
        ⟨some tid, cns, some cid⟩
        (writes.map fun w => (w.1, PyVal.str w.2)) task tb
      = some
          ⟨[{ ThreadId := tid, CheckpointNamespace := cns, CheckpointId := cid,
              ParentCheckpointId := "", Snapshot := toJsonLike (PyVal.dict snapFields),
              CreatedAt := ta, Deleted := false }],
            [{ ThreadId := tid, CheckpointNamespace := cns, CheckpointId := cid,
               TaskId := task,
               Writes := PyVal.list
                 (writes.map fun w => PyVal.list [PyVal.str w.1, PyVal.str w.2]),
               CreatedAt := tb }]⟩
    ∧ (checkpoint_get_tuple
          ⟨[{ ThreadId := tid, CheckpointNamespace := cns, CheckpointId := cid,
              ParentCheckpointId := "", Snapshot := toJsonLike (PyVal.dict snapFields),
              CreatedAt := ta, Deleted := false }],
            [{ ThreadId := tid, CheckpointNamespace := cns, CheckpointId := cid,
               TaskId := task,
               Writes := PyVal.list
                 (writes.map fun w => PyVal.list [PyVal.str w.1, PyVal.str w.2]),
               CreatedAt := tb }]⟩
          ⟨some tid, cns, some cid⟩).map (Option.map fun t => t.pending_writes)
        = Except.ok (some (some
            (writes.map fun w => PyVal.tup [PyVal.str w.1, PyVal.str w.2]))) := by
  obtain ⟨w0, wrest, rfl⟩ := List.exists_cons_of_ne_nil hw
  have htid' : (tid == "") = false := beq_eq_false_iff_ne.mpr htid
  have hcid' : (cid == "") = false := beq_eq_false_iff_ne.mpr hcid
  refine ⟨rfl, ?_, ?_⟩
  · simp only [checkpoint_put_writes, truthyStr, hcid', Bool.false_eq_true, if_false,
      toJsonLike, List.map_map]
    simp only [Function.comp_def]
    simpa using writes_toJsonLike (w0 :: wrest)
  · simp only [checkpoint_get_tuple, truthyStr, htid', hcid', Bool.false_eq_true,
      if_false, get_checkpoint_row, checkpoints_live, summarizeArgmax,
      summarizeArgmax.insertArgmax, List.foldl_cons, List.foldl_nil,
      deserialize_snapshot, toJsonLike]
    simp only [restore_writes, pyTruthy, List.map_map, Function.comp_def]
    simp
    rfl

/-- Witness for C5 at the claim's concrete input: checkpoint `"c1"`, task
`"t1"`, writes `[("ch1","v1"), ("ch2","v2")]`. -/
theorem c5_checkpoint_writes_round_trip_witness :
    checkpoint_put CkptState.empty ⟨some "t", "", none⟩ "c1"
        (PyVal.dict [("k", PyVal.str "s")]) 0
      = some
          (⟨[{ ThreadId := "t", CheckpointNamespace := "", CheckpointId := "c1",
               ParentCheckpointId := "",
               Snapshot := toJsonLike (PyVal.dict [("k", PyVal.str "s")]),
               CreatedAt := 0, Deleted := false }], []⟩,
           ⟨some "t", "", some "c1"⟩)
    ∧ checkpoint_put_writes
        ⟨[{ ThreadId := "t", CheckpointNamespace := "", CheckpointId := "c1",
            ParentCheckpointId := "",
            Snapshot := toJsonLike (PyVal.dict [("k", PyVal.str "s")]),
            CreatedAt := 0, Deleted := false }], []⟩
        ⟨some "t", "", some "c1"⟩
        (([("ch1", "v1"), ("ch2", "v2")] : List (String × String)).map
          fun w => (w.1, PyVal.str w.2)) "t1" 1
      = some
          ⟨[{ ThreadId := "t", CheckpointNamespace := "", CheckpointId := "c1",
              ParentCheckpointId := "",
              Snapshot := toJsonLike (PyVal.dict [("k", PyVal.str "s")]),
              CreatedAt := 0, Deleted := false }],
            [{ ThreadId := "t", CheckpointNamespace := "", CheckpointId := "c1",
               TaskId := "t1",
               Writes := PyVal.list
                 (([("ch1", "v1"), ("ch2", "v2")] : List (String × String)).map
                   fun w => PyVal.list [PyVal.str w.1, PyVal.str w.2]),
               CreatedAt := 1 }]⟩
    ∧ (checkpoint_get_tuple
          ⟨[{ ThreadId := "t", CheckpointNamespace := "", CheckpointId := "c1",
              ParentCheckpointId := "",
              Snapshot := toJsonLike (PyVal.dict [("k", PyVal.str "s")]),
              CreatedAt := 0, Deleted := false }],
            [{ ThreadId := "t", CheckpointNamespace := "", CheckpointId := "c1",
               TaskId := "t1",
               Writes := PyVal.list
                 (([("ch1", "v1"), ("ch2", "v2")] : List (String × String)).map
                   fun w => PyVal.list [PyVal.str w.1, PyVal.str w.2]),
               CreatedAt := 1 }]⟩
          ⟨some "t", "", some "c1"⟩).map (Option.map fun t => t.pending_writes)
        = Except.ok (some (some
            (([("ch1", "v1"), ("ch2", "v2")] : List (String × String)).map
              fun w => PyVal.tup [PyVal.str w.1, PyVal.str w.2]))) :=
  c5_checkpoint_writes_round_trip "t" "" "c1" "t1" [("k", PyVal.str "s")]
    [("ch1", "v1"), ("ch2", "v2")] 0 1
    (by decide) (by decide) (by simp)

end LangGraphKusto
